import Mathlib

/-!
Verification of the Bee-Deals AI product-description generator.

This file is a shallow embedding of the application's core logic:

* the output-cleaning helpers of the Gemini service (`cleanAiOutput`, the
  features-list normalisation, `translateContent`, `generateAllContent`,
  `regenerateSectionContent`), and
* the `App.tsx` state machine (generation, per-section regenerate /
  translate handlers with their pending-operation set, and the
  option-change reconciliation effect).

External effects are made explicit: the AI gateway's answer is a parameter
of each operation, wall-clock time (`Date.now()`) is a `Nat` parameter, and
asynchronous handlers are split into a synchronous `...Start` phase (the
code up to and including issuing the remote call) and a `...Finish` phase
(the continuation that runs when the call settles).  Log lines are modelled
as the message strings; the source additionally prefixes each entry with a
wall-clock timestamp, which is not modelled.
-/

namespace BeeDeals

/-! ## Basic enumerations

`types.ts` is not part of the available sources; the enumerations below are
reconstructed from their uses in `constants.ts` (`TONES`, `LENGTHS`,
`EMOJIS`, `LANGUAGES`) and `App.tsx`. -/

/-- Modelled from the spec: the `Language` union type (`constants.ts` lists
exactly `'English'` and `'Hebrew'`). -/
inductive Language where
  | English
  | Hebrew
deriving DecidableEq

/-- Modelled from the spec: the five content sections. -/
inductive Section where
  | photo
  | header
  | description
  | features
  | reviews
deriving DecidableEq

inductive Tone where
  | Formal
  | Casual
  | Persuasive
deriving DecidableEq

inductive Length where
  | Auto
  | Short
  | Medium
  | Long
deriving DecidableEq

inductive Emojis where
  | Yes
  | No
deriving DecidableEq

structure CustomizationOptions where
  tone : Tone
  length : Length
  emojis : Emojis
deriving DecidableEq

/-- `OutputLanguage = 'auto' | Language`. -/
inductive OutputLanguage where
  | auto
  | explicit (lang : Language)
deriving DecidableEq

def langName : Language → String
  | .English => "English"
  | .Hebrew => "Hebrew"

def secName : Section → String
  | .photo => "photo"
  | .header => "header"
  | .description => "description"
  | .features => "features"
  | .reviews => "reviews"

/-- The product record produced by the scraping service
(`scrapingService.ts`, return shape of `scrapeUrl`). -/
structure ScrapedProductData where
  url : String
  title : String
  description : String
  features : List String
  reviews : List String
  image : String
  price : Option String
  language : String
deriving DecidableEq

/-! ## JavaScript string helpers -/

/-- The characters treated as whitespace by the modelled JS regex class
`\s` and by `String.prototype.trim` (ASCII subset; the inputs in this
development contain no exotic Unicode space characters). -/
def isJsWs (c : Char) : Bool :=
  c = ' ' || c = '\t' || c = '\n' || c = '\r' || c = '\x0b' || c = '\x0c'

/-- JS `String.prototype.trim`. -/
def jsTrim (s : String) : String :=
  ⟨((s.data.dropWhile isJsWs).reverse.dropWhile isJsWs).reverse⟩

/-- The lines of a character list, in the sense of JS `split('\n')`
(always at least one line; a trailing newline yields a final empty line). -/
def linesOf : List Char → List (List Char)
  | [] => [[]]
  | c :: cs =>
    if c = '\n' then [] :: linesOf cs
    else
      match linesOf cs with
      | [] => [[c]]
      | a :: rest => (c :: a) :: rest

/-- Join lines back with `'\n'` separators (JS `join('\n')`). -/
def joinLines : List (List Char) → List Char
  | [] => []
  | [l] => l
  | l :: l' :: ls => l ++ '\n' :: joinLines (l' :: ls)

theorem linesOf_ne_nil (l : List Char) : linesOf l ≠ [] := by
  cases l with
  | nil => simp [linesOf]
  | cons c cs =>
    by_cases hc : c = '\n'
    · simp [linesOf, hc]
    · simp only [linesOf, hc, if_false]
      cases linesOf cs <;> simp

theorem joinLines_linesOf (l : List Char) : joinLines (linesOf l) = l := by
  induction l with
  | nil => rfl
  | cons c cs ih =>
    by_cases hc : c = '\n'
    · subst hc
      simp only [linesOf, if_pos rfl]
      rcases hl : linesOf cs with _ | ⟨a, rest⟩
      · exact absurd hl (linesOf_ne_nil cs)
      · rw [hl] at ih
        show joinLines ([] :: a :: rest) = '\n' :: cs
        rw [show joinLines ([] :: a :: rest) = [] ++ '\n' :: joinLines (a :: rest) from rfl]
        rw [ih]
        rfl
    · simp only [linesOf, hc, if_false]
      rcases hl : linesOf cs with _ | ⟨a, rest⟩
      · exact absurd hl (linesOf_ne_nil cs)
      · rw [hl] at ih
        cases rest with
        | nil =>
          show joinLines [c :: a] = c :: cs
          simp only [joinLines]
          simp only [joinLines] at ih
          rw [ih]
        | cons r rs =>
          show joinLines ((c :: a) :: r :: rs) = c :: cs
          rw [show joinLines ((c :: a) :: r :: rs)
                = (c :: a) ++ '\n' :: joinLines (r :: rs) from rfl]
          rw [show joinLines (a :: r :: rs) = a ++ '\n' :: joinLines (r :: rs) from rfl] at ih
          rw [List.cons_append]
          rw [← ih]

/-! ## `cleanAiOutput` (geminiService)

The source removes markdown heading lines with the global multi-line regex
`/^#+\s.*$/gm`, then removes the first match of each of three introductory
patterns (`/Here is the.*:\s*/i`, `/Here's an.*:\s*/i`, `/להלן.*:/i`), and
trims at both ends.  The regex semantics are reproduced exactly:
`.*` does not cross newlines, `.*:` backtracks to the last colon on the
line, `\s*` is greedy across newlines, and in `/^#+\s.*$/gm` the `\s` may
consume the newline of a hashes-only line, deleting the following line's
content as well. -/

/-- Does the line match `^#+\s` with the whitespace inside the line
(one or more `#`, then a whitespace character)? -/
def lineHeadingInline (l : List Char) : Bool :=
  let rest := l.dropWhile (· = '#')
  decide (rest.length < l.length) &&
    (match rest with
     | c :: _ => isJsWs c
     | [] => false)

/-- Is the line one or more `#` and nothing else?  (Then `\s` of the regex
matches the terminating newline and `.*$` swallows the next line.) -/
def lineAllHash (l : List Char) : Bool :=
  !l.isEmpty && l.all (· = '#')

/-- Effect of `replace(/^#+\s.*$/gm, '')` on the list of lines. -/
def removeHeadingsLines : List (List Char) → List (List Char)
  | [] => []
  | l :: rest =>
    if lineHeadingInline l then [] :: removeHeadingsLines rest
    else if lineAllHash l then
      match rest with
      | [] => [l]
      | _ :: rs => [] :: removeHeadingsLines rs
    else l :: removeHeadingsLines rest

def removeHeadings (s : String) : String :=
  ⟨joinLines (removeHeadingsLines (linesOf s.data))⟩

/-- Case-insensitive character comparison (JS `/i` flag). -/
def charLowerEq (a b : Char) : Bool :=
  a.toLower = b.toLower

/-- Case-insensitive "starts with". -/
def caselessStarts : List Char → List Char → Bool
  | [], _ => true
  | _ :: _, [] => false
  | a :: as, b :: bs => charLowerEq a b && caselessStarts as bs

/-- Rightmost index of `c` in `l`, if any. -/
def lastIdxOf (c : Char) : List Char → Option Nat
  | [] => none
  | a :: as =>
    match lastIdxOf c as with
    | some j => some (j + 1)
    | none => if a = c then some 0 else none

/-- Length of the match of `lit.*:` (optionally followed by `\s*`) at the
head of `s`, if the pattern matches there: the literal, then the greedy
`.*:` reaching the last colon on the literal's line, then greedy
whitespace when `eatWs` is set. -/
def matchIntroLen (lit : List Char) (eatWs : Bool) (s : List Char) : Option Nat :=
  if caselessStarts lit s then
    match lastIdxOf ':' ((s.drop lit.length).takeWhile (· ≠ '\n')) with
    | some j =>
      let base := lit.length + j + 1
      some (base + (if eatWs then ((s.drop base).takeWhile isJsWs).length else 0))
    | none => none
  else none

/-- JS `replace(pattern, '')` for the intro patterns: remove the leftmost
match, leaving the text unchanged when there is none. -/
def removeIntroPhrase (lit : List Char) (eatWs : Bool) : List Char → List Char
  | [] => []
  | c :: cs =>
    match matchIntroLen lit eatWs (c :: cs) with
    | some n => (c :: cs).drop n
    | none => c :: removeIntroPhrase lit eatWs cs

def hereIsThePat : List Char := "Here is the".data

/-- `Here's an` (built with an explicit apostrophe character). -/
def heresAnPat : List Char := "Here".data ++ '\x27' :: "s an".data

def hebrewLeadPat : List Char := "להלן".data

/-- `cleanAiOutput` from the Gemini service. -/
def cleanAiOutput (text : String) : String :=
  if text = "" then ""
  else
    let t1 := jsTrim text
    let t2 := removeHeadings t1
    let t3 := removeIntroPhrase hereIsThePat true t2.data
    let t4 := removeIntroPhrase heresAnPat true t3
    let t5 := removeIntroPhrase hebrewLeadPat false t4
    jsTrim ⟨t5⟩

/-- `replace(/^-|^\*/, '•')`: turn a leading `-` or `*` into the bullet
glyph. -/
def bulletize (c : String) : String :=
  match c.data with
  | '-' :: rest => ⟨'•' :: rest⟩
  | '*' :: rest => ⟨'•' :: rest⟩
  | _ => c

def splitNl (s : String) : List String :=
  (linesOf s.data).map (⟨·⟩)

/-- The features normalisation of `generateAllContent` (line 183):
`split('\n').map(line => cleanAiOutput(line).trim().replace(/^-|^\*/, '•')
.trim()).filter(Boolean).join('\n')`. -/
def cleanFeatures (s : String) : String :=
  String.intercalate "\n"
    (((splitNl s).map fun line => jsTrim (bulletize (jsTrim (cleanAiOutput line)))).filter
      (· ≠ ""))

/-- The features normalisation of `regenerateSectionContent` (line 226),
applied after `cleanAiOutput` on the whole content:
`split('\n').map(line => line.trim().replace(/^-|^\*/, '•').trim())
.filter(Boolean).join('\n')`. -/
def regenFeaturesClean (content : String) : String :=
  String.intercalate "\n"
    (((splitNl content).map fun l => jsTrim (bulletize (jsTrim l))).filter (· ≠ ""))

/-- A line matching neither heading form. -/
def lineHeadingFree (l : List Char) : Bool :=
  !lineHeadingInline l && !lineAllHash l

/-- No line of the text matches `/^#+\s.*$/gm`. -/
def headingFree (s : String) : Bool :=
  (linesOf s.data).all lineHeadingFree

/-- The intro pattern matches nowhere in the text. -/
def introFree (lit : List Char) (eatWs : Bool) : List Char → Bool
  | [] => true
  | c :: cs => (matchIntroLen lit eatWs (c :: cs)).isNone && introFree lit eatWs cs

theorem removeHeadingsLines_id (ls : List (List Char))
    (h : ls.all lineHeadingFree = true) : removeHeadingsLines ls = ls := by
  induction ls with
  | nil => rfl
  | cons l rest ih =>
    simp only [List.all_cons, Bool.and_eq_true, lineHeadingFree,
      Bool.not_eq_true'] at h
    obtain ⟨⟨h1, h2⟩, h3⟩ := h
    cases rest with
    | nil => simp [removeHeadingsLines, h1, h2]
    | cons r rs =>
      simp only [removeHeadingsLines, h1, h2, Bool.false_eq_true, if_false]
      rw [ih h3]

theorem removeHeadings_id (s : String) (h : headingFree s = true) :
    removeHeadings s = s := by
  unfold removeHeadings headingFree at *
  rw [removeHeadingsLines_id _ h, joinLines_linesOf]

theorem removeIntroPhrase_id (lit : List Char) (eatWs : Bool) (l : List Char)
    (h : introFree lit eatWs l = true) : removeIntroPhrase lit eatWs l = l := by
  induction l with
  | nil => rfl
  | cons c cs ih =>
    simp only [introFree, Bool.and_eq_true, Option.isNone_iff_eq_none] at h
    obtain ⟨h1, h2⟩ := h
    simp only [removeIntroPhrase, h1]
    rw [ih h2]

/-- Text with no heading line, no intro-pattern occurrence, and no
leading/trailing whitespace passes through `cleanAiOutput` unchanged. -/
theorem cleanAiOutput_id (s : String)
    (htrim : jsTrim s = s)
    (hhead : headingFree s = true)
    (h1 : introFree hereIsThePat true s.data = true)
    (h2 : introFree heresAnPat true s.data = true)
    (h3 : introFree hebrewLeadPat false s.data = true) :
    cleanAiOutput s = s := by
  unfold cleanAiOutput
  by_cases hs : s = ""
  · simp [hs]
  · simp only [hs, if_false]
    rw [htrim, removeHeadings_id s hhead,
      removeIntroPhrase_id _ _ _ h1, removeIntroPhrase_id _ _ _ h2,
      removeIntroPhrase_id _ _ _ h3]
    exact htrim

/-! ## The Gemini service operations

The AI gateway is an external collaborator; each service function takes the
gateway's answer as an explicit argument (`Except.error` = the transport
call rejected; `Except.ok` = the text it returned) and also reports how
many gateway calls it performed, so call-counting properties are
statable. -/

/-- A translation request as issued by `translateContent`. -/
structure TranslateReq where
  text : String
  target : Language
  context : String
deriving DecidableEq

/-- `translateContent`: empty input returns `''` without calling the
gateway; otherwise one call, whose text is trimmed and cleaned, and whose
failure is rethrown as `AI failed to translate the content for ...`. -/
def translateContent (req : TranslateReq) (gwText : Except String String) :
    Except String String × Nat :=
  if req.text = "" then (.ok "", 0)
  else
    match gwText with
    | .error _ =>
      (.error ("AI failed to translate the content for " ++ req.context ++ "."), 1)
    | .ok t => (.ok (cleanAiOutput (jsTrim t)), 1)

/-- The parsed JSON object of a `generateAllContent` gateway response.
The call is made with a `responseSchema` declaring exactly the four
properties `header`, `description`, `features`, `reviews`, each optional;
a field is `none` when the key is absent from the returned JSON. -/
structure GenAllResp where
  header? : Option String
  description? : Option String
  features? : Option String
  reviews? : Option String
deriving DecidableEq

/-- Outcome of the single gateway call of `generateAllContent`:
either the transport rejected, or it returned text whose JSON parse is
`none` (unparseable) or `some` parsed object. -/
inductive GwResult where
  | err (msg : String)
  | raw (parsed : Option GenAllResp)
deriving DecidableEq

/-- The section-content delta produced by a successful `generateAllContent`
(everything except `photo`). -/
structure GenContentDelta where
  header : String
  description : String
  features : String
  reviews? : Option String
deriving DecidableEq

/-- The sections requested from the gateway by `generateAllContent`:
`header`, `description`, `features`, plus `reviews` iff the product has
reviews. -/
def requestedSections (product : ScrapedProductData) : List Section :=
  [.header, .description, .features] ++
    (if product.reviews ≠ [] then [.reviews] else [])

/-- `generateAllContent`: one gateway call; a transport error propagates as
the thrown exception; unparseable text throws the fixed format-error
message; otherwise the parsed object is cleaned field-wise, with missing
keys defaulted to `''` (`parsed.header || ''` etc.) and `reviews` cleaned
only when present and non-empty (`if (parsed.reviews)`), its key kept
as-is otherwise. -/
def generateAllContent (product : ScrapedProductData) (gw : GwResult) :
    Except String GenContentDelta :=
  match gw with
  | .err m => .error m
  | .raw none =>
    .error "AI failed to generate a valid response. Check the debug log for details."
  | .raw (some p) =>
    .ok
      { header := cleanAiOutput (p.header?.getD "")
        description := cleanAiOutput (p.description?.getD "")
        features := cleanFeatures (p.features?.getD "")
        reviews? := p.reviews?.map fun v => if v = "" then "" else cleanAiOutput v }

/-- A regeneration request as issued by `handleRegenerateSection`. -/
structure RegenReq where
  sec : Section
  product : ScrapedProductData
  options : CustomizationOptions
  language : Language
deriving DecidableEq

/-- `regenerateSectionContent`: the `photo` section never calls the
gateway and returns the stored image URL with `&t=<Date.now()>` appended
(`now` is the clock reading, rendered in decimal as JS renders an integral
number); any other section makes one gateway call and cleans the reply,
with the extra features normalisation for `features`. -/
def regenerateSectionContent (req : RegenReq) (now : Nat)
    (gwText : Except String String) : Except String String × Nat :=
  if req.sec = .photo then
    (.ok (req.product.image ++ "&t=" ++ Nat.repr now), 0)
  else
    match gwText with
    | .error m => (.error m, 1)
    | .ok t =>
      let content := cleanAiOutput (jsTrim t)
      (.ok (if req.sec = .features then regenFeaturesClean content else content), 1)

/-! ## The `App.tsx` state machine -/

/-- The generated-content store: one value per section (`photo`, `header`,
`description`, `features` always present once content exists; `reviews`
optional). -/
structure GeneratedContent where
  photo : String
  header : String
  description : String
  features : String
  reviews? : Option String
deriving DecidableEq

def getSection (g : GeneratedContent) : Section → Option String
  | .photo => some g.photo
  | .header => some g.header
  | .description => some g.description
  | .features => some g.features
  | .reviews => g.reviews?

def setSection (g : GeneratedContent) : Section → String → GeneratedContent
  | .photo, v => { g with photo := v }
  | .header, v => { g with header := v }
  | .description, v => { g with description := v }
  | .features, v => { g with features := v }
  | .reviews, v => { g with reviews? := some v }

/-- The per-section language-tag map (`sectionLanguages`); a JS object
whose keys are sections, so every entry is optional. -/
structure SectionLangs where
  photo? : Option Language
  header? : Option Language
  description? : Option Language
  features? : Option Language
  reviews? : Option Language
deriving DecidableEq

def SectionLangs.get (m : SectionLangs) : Section → Option Language
  | .photo => m.photo?
  | .header => m.header?
  | .description => m.description?
  | .features => m.features?
  | .reviews => m.reviews?

def SectionLangs.set (m : SectionLangs) : Section → Language → SectionLangs
  | .photo, v => { m with photo? := some v }
  | .header, v => { m with header? := some v }
  | .description, v => { m with description? := some v }
  | .features, v => { m with features? := some v }
  | .reviews, v => { m with reviews? := some v }

/-- `initialSectionLanguages`: `header`/`description`/`features`/`reviews`
tagged `English`, no `photo` entry. -/
def initialSectionLanguages : SectionLangs :=
  ⟨none, some .English, some .English, some .English, some .English⟩

/-- The `App` component state. -/
structure AppState where
  userInput : String
  isLoading : Bool
  error : Option String
  productData : Option ScrapedProductData
  generatedContent : Option GeneratedContent
  /-- The Pending-Operation Set (`regeneratingSections`, a JS `Set`). -/
  regeneratingSections : List Section
  toastMessage : String
  logs : List String
  options : CustomizationOptions
  outputLanguage : OutputLanguage
  lastUsedOptions : Option CustomizationOptions
  lastUsedOutputLanguage : Option OutputLanguage
  sectionLanguages : SectionLangs
  originLanguage : Language
deriving DecidableEq

/-- `addLog` (the source prefixes a wall-clock timestamp, not modelled). -/
def addLog (s : AppState) (msg : String) : AppState :=
  { s with logs := s.logs ++ [msg] }

/-- `Set.add` on the pending set. -/
def pendingAdd (l : List Section) (sec : Section) : List Section :=
  if sec ∈ l then l else l ++ [sec]

/-- `Set.delete` on the pending set. -/
def pendingRemove (l : List Section) (sec : Section) : List Section :=
  l.filter (· ≠ sec)

/-! ### `handleRegenerateSection`

The async handler is split at the `await`: `regenerateStart` is the
synchronous prefix (guard, `[START]` log, adding the section to the
pending set, building the request for `regenerateSectionContent`);
`regenerateFinish` is the continuation receiving the settled result
(success updates the store, failure only logs; `finally` removes the
section from the pending set). -/

def regenerateStart (sec : Section) (s : AppState) : AppState × Option RegenReq :=
  match s.productData with
  | none => (s, none)
  | some pd =>
    if sec ∈ s.regeneratingSections then (s, none)
    else
      let lang := (s.sectionLanguages.get sec).getD .English
      let s := addLog s
        ("[START] Regenerating section: " ++ secName sec ++ " in " ++ langName lang ++ "...")
      let s := { s with regeneratingSections := pendingAdd s.regeneratingSections sec }
      (s, some ⟨sec, pd, s.options, lang⟩)

def regenerateFinish (sec : Section) (result : Except String String)
    (s : AppState) : AppState :=
  let s :=
    match result with
    | .ok newContent =>
      let s := { s with
        generatedContent := s.generatedContent.map fun g => setSection g sec newContent }
      addLog s ("[SUCCESS] Section " ++ secName sec ++ " regenerated.")
    | .error m =>
      addLog s ("[ERROR] Failed to regenerate " ++ secName sec ++ ": " ++ m)
  { s with regeneratingSections := pendingRemove s.regeneratingSections sec }

/-! ### `handleTranslateSection` (same splitting) -/

def sectionContextMap : Section → Option String
  | .header => some "a product header"
  | .description => some "a product description"
  | .features => some "a bulleted list of product features"
  | .reviews => some "a summary of customer reviews"
  | .photo => none

/-- Synchronous prefix of `handleTranslateSection`: guard, `[START]` log,
pending-set insertion, then the content lookup; a missing section value
(`typeof contentToTranslate !== 'string'`) throws synchronously, which the
handler's `catch`/`finally` turn into an `[ERROR]` log plus pending-set
removal, with no gateway request. -/
def translateStart (sec : Section) (target : Language) (s : AppState) :
    AppState × Option TranslateReq :=
  match s.productData, s.generatedContent with
  | some _, some g =>
    if sec ∈ s.regeneratingSections then (s, none)
    else
      let s := addLog s
        ("[START] Translating section: " ++ secName sec ++ " to " ++ langName target ++ "...")
      let s := { s with regeneratingSections := pendingAdd s.regeneratingSections sec }
      match getSection g sec with
      | none =>
        let s := addLog s
          ("[ERROR] Failed to translate " ++ secName sec ++ ": No content to translate.")
        ({ s with regeneratingSections := pendingRemove s.regeneratingSections sec }, none)
      | some txt => (s, some ⟨txt, target, (sectionContextMap sec).getD "text"⟩)
  | _, _ => (s, none)

def translateFinish (sec : Section) (target : Language)
    (result : Except String String) (s : AppState) : AppState :=
  let s :=
    match result with
    | .ok newContent =>
      let s := { s with
        generatedContent := s.generatedContent.map fun g => setSection g sec newContent
        sectionLanguages := s.sectionLanguages.set sec target }
      addLog s ("[SUCCESS] Section " ++ secName sec ++ " translated.")
    | .error m =>
      addLog s ("[ERROR] Failed to translate " ++ secName sec ++ ": " ++ m)
  { s with regeneratingSections := pendingRemove s.regeneratingSections sec }

/-! ### `handleGenerate` -/

inductive ScrapeMode where
  | auto
  | html
  | text
deriving DecidableEq

def modeName : ScrapeMode → String
  | .auto => "auto"
  | .html => "html"
  | .text => "text"

/-- Case-insensitive substring test (JS `regex.test` for a literal). -/
def hasCaselessSub (lit : List Char) : List Char → Bool
  | [] => lit.isEmpty
  | c :: cs => caselessStarts lit (c :: cs) || hasCaselessSub lit cs

/-- Tail of the URL regex after `http` / `https`: `://` then one or more
non-whitespace characters reaching the end of the string. -/
def urlTail : List Char → Bool
  | ':' :: '/' :: '/' :: rest => !rest.isEmpty && rest.all (fun c => !isJsWs c)
  | _ => false

/-- `/^https?:\/\/\S+$/.test` -/
def isUrlStr (t : String) : Bool :=
  match t.data with
  | 'h' :: 't' :: 't' :: 'p' :: rest =>
    (match rest with
     | 's' :: r => urlTail r
     | _ => false) || urlTail rest
  | _ => false

/-- `detectInputType`: HTML markers win, then the URL shape (mode `auto`),
else free text. -/
def detectInputType (input : String) : ScrapeMode :=
  let t := jsTrim input
  if hasCaselessSub "<html".data t.data || hasCaselessSub "<!DOCTYPE".data t.data then .html
  else if isUrlStr t then .auto
  else .text

/-- `handleGenerate`, with the two external effects as parameters: the
extraction pipeline's outcome (`scrapeUrl` / `parseHtmlContent` /
`parseTextContent`, all modelled by one oracle since only the detected
input type selects among them) and the generation gateway call's outcome.
Returns the new state, the number of extraction calls made and the number
of generation gateway calls made.  The source logs the full scraped record
JSON; the serialisation itself is not modelled. -/
def handleGenerate (s : AppState) (extractResult : Except String ScrapedProductData)
    (gw : GwResult) : AppState × Nat × Nat :=
  if jsTrim s.userInput = "" then (s, 0, 0)
  else
    let s0 := { s with
      logs := ["[START] Starting new generation process..."]
      isLoading := true
      error := none
      generatedContent := none
      productData := none
      lastUsedOptions := none
      lastUsedOutputLanguage := none
      originLanguage := .English }
    let inputType := detectInputType s0.userInput
    let s1 := addLog s0 ("[SYSTEM] Detected input type: " ++ modeName inputType)
    match extractResult with
    | .error m =>
      let em := if m = "" then "An unexpected error occurred." else m
      let s2 := { s1 with error := some em }
      let s2 := addLog s2 ("[ERROR] Generation failed: " ++ em)
      ({ s2 with isLoading := false }, 1, 0)
    | .ok data =>
      let s2 := addLog s1 "[SYSTEM] Scraped and processed data."
      -- processScrapedData
      let s3 := { s2 with productData := some data }
      let initialLanguage : Language := if data.language = "he" then .Hebrew else .English
      let s4 := addLog s3
        ("[SYSTEM] Detected origin language: " ++ langName initialLanguage ++ ".")
      let s4 := { s4 with originLanguage := initialLanguage }
      let generationLanguage :=
        match s4.outputLanguage with
        | .auto => initialLanguage
        | .explicit l => l
      let s5 := addLog s4
        ("[SYSTEM] Setting initial generation language to: " ++ langName generationLanguage ++ ".")
      let s5 := { s5 with
        sectionLanguages :=
          ⟨none, some generationLanguage, some generationLanguage,
            some generationLanguage, some generationLanguage⟩ }
      match generateAllContent data gw with
      | .error m =>
        let em := if m = "" then "An unexpected error occurred." else m
        let s6 := { s5 with error := some em }
        let s6 := addLog s6 ("[ERROR] Generation failed: " ++ em)
        ({ s6 with isLoading := false }, 1, 1)
      | .ok delta =>
        let s6 := { s5 with
          generatedContent :=
            some ⟨data.image, delta.header, delta.description, delta.features, delta.reviews?⟩ }
        let s7 := { s6 with
          lastUsedOptions := some s.options
          lastUsedOutputLanguage := some s.outputLanguage }
        let s8 := addLog s7 "[SUCCESS] Generation process completed successfully."
        ({ s8 with isLoading := false }, 1, 1)

/-! ### The option-change reconciliation effect (`useEffect`, App.tsx
lines 213-234) -/

/-- The effect body up to the dispatch loop: guard (content present, a
last-used snapshot exists, not loading, no pending section), comparison of
`tone`/`length`/`emojis` against the snapshot, snapshot update.  Returns
the updated state and the sections to regenerate (`description` only, when
any option changed). -/
def optionsEffect (s : AppState) : AppState × List Section :=
  if s.generatedContent.isNone || s.lastUsedOptions.isNone || s.isLoading
      || !s.regeneratingSections.isEmpty then
    (s, [])
  else
    match s.lastUsedOptions with
    | none => (s, [])
    | some lu =>
      if s.options.tone ≠ lu.tone ∨ s.options.length ≠ lu.length
          ∨ s.options.emojis ≠ lu.emojis then
        ({ s with lastUsedOptions := some s.options }, [.description])
      else (s, [])

/-- The whole reconciliation pass: the effect body followed by the
`handleRegenerateSection` dispatch for each named section; returns the
requests actually issued. -/
def optionsReconcile (s : AppState) : AppState × List RegenReq :=
  let p := optionsEffect s
  p.2.foldl
    (fun acc sec =>
      let q := regenerateStart sec acc.1
      (q.1, acc.2 ++ q.2.toList))
    (p.1, [])

/-! ## Injectivity of the decimal rendering used for the cache-busting
token (`Nat.repr`, i.e. the interpolation of `Date.now()`). -/

/-- Recursion-friendly form of `Nat.toDigits 10`. -/
def digitsGo (n : Nat) : List Char :=
  if h : n < 10 then [Nat.digitChar n]
  else digitsGo (n / 10) ++ [Nat.digitChar (n % 10)]
termination_by n
decreasing_by
  exact Nat.div_lt_self (by omega) (by omega)

theorem digitsGo_lt {n : Nat} (h : n < 10) : digitsGo n = [Nat.digitChar n] := by
  rw [digitsGo]
  exact dif_pos h

theorem digitsGo_ge {n : Nat} (h : ¬ n < 10) :
    digitsGo n = digitsGo (n / 10) ++ [Nat.digitChar (n % 10)] := by
  conv_lhs => rw [digitsGo]
  exact dif_neg h

theorem digitsGo_ne_nil (n : Nat) : digitsGo n ≠ [] := by
  by_cases h : n < 10
  · rw [digitsGo_lt h]; simp
  · rw [digitsGo_ge h]; simp

theorem toDigitsCore_eq_go :
    ∀ (fuel n : Nat) (ds : List Char), n < fuel →
      Nat.toDigitsCore 10 fuel n ds = digitsGo n ++ ds := by
  intro fuel
  induction fuel with
  | zero => intro n ds h; omega
  | succ f ih =>
    intro n ds h
    simp only [Nat.toDigitsCore]
    by_cases h10 : n / 10 = 0
    · have hn : n < 10 := by omega
      simp only [h10, if_pos rfl]
      rw [digitsGo_lt hn, Nat.mod_eq_of_lt hn]
      rfl
    · simp only [h10, if_false]
      have hlt : n / 10 < f := by
        have := Nat.div_lt_self (by omega : 0 < n) (by omega : 1 < 10)
        omega
      rw [ih (n / 10) (Nat.digitChar (n % 10) :: ds) hlt]
      rw [digitsGo_ge (by omega : ¬ n < 10)]
      simp

theorem digitChar_inj_lt :
    ∀ a < 10, ∀ b < 10, Nat.digitChar a = Nat.digitChar b → a = b := by
  decide

theorem digitsGo_inj : ∀ m n : Nat, digitsGo m = digitsGo n → m = n := by
  intro m
  induction m using Nat.strong_induction_on with
  | _ m ih =>
    intro n h
    by_cases hm : m < 10 <;> by_cases hn : n < 10
    · rw [digitsGo_lt hm, digitsGo_lt hn] at h
      exact digitChar_inj_lt m hm n hn (by injection h)
    · rw [digitsGo_lt hm, digitsGo_ge hn] at h
      have := congrArg List.length h
      simp at this
      have := digitsGo_ne_nil (n / 10)
      cases hgo : digitsGo (n / 10) <;> simp_all
    · rw [digitsGo_ge hm, digitsGo_lt hn] at h
      have := congrArg List.length h
      simp at this
      have := digitsGo_ne_nil (m / 10)
      cases hgo : digitsGo (m / 10) <;> simp_all
    · rw [digitsGo_ge hm, digitsGo_ge hn] at h
      have h' := congrArg List.reverse h
      simp only [List.reverse_append, List.reverse_cons, List.reverse_nil,
        List.nil_append, List.singleton_append, List.cons.injEq] at h'
      obtain ⟨hd, ht⟩ := h'
      have hdiv : m / 10 = n / 10 := by
        have : digitsGo (m / 10) = digitsGo (n / 10) :=
          List.reverse_injective ht
        exact ih (m / 10) (Nat.div_lt_self (by omega) (by omega)) _ this
      have hmod : m % 10 = n % 10 :=
        digitChar_inj_lt _ (Nat.mod_lt _ (by omega)) _ (Nat.mod_lt _ (by omega)) hd
      omega

theorem natRepr_inj (m n : Nat) (h : Nat.repr m = Nat.repr n) : m = n := by
  unfold Nat.repr Nat.toDigits at h
  rw [toDigitsCore_eq_go (m + 1) m [] (by omega),
    toDigitsCore_eq_go (n + 1) n [] (by omega)] at h
  simp only [List.append_nil, List.asString] at h
  exact digitsGo_inj m n (by injection h)

/-! ## Sample fixtures (concrete witnesses) -/

/-- The spec's concrete scenario product (empty reviews). -/
def sampleProduct : ScrapedProductData :=
  { url := "https://example.com/widget"
    title := "Widget"
    description := "A widget."
    features := ["Durable", "Lightweight"]
    reviews := []
    image := "https://x/img.png"
    price := none
    language := "en" }

/-- The same product with one review. -/
def sampleProductR : ScrapedProductData :=
  { sampleProduct with reviews := ["Great product"] }

def sampleContent : GeneratedContent :=
  { photo := "https://x/img.png"
    header := "Widget Header"
    description := "Widget description."
    features := "• Durable\n• Lightweight"
    reviews? := none }

def defaultOptions : CustomizationOptions :=
  { tone := .Formal, length := .Auto, emojis := .No }

/-- A `Ready` state: content present, nothing pending, not loading. -/
def sampleReadyState : AppState :=
  { userInput := "https://example.com/widget"
    isLoading := false
    error := none
    productData := some sampleProduct
    generatedContent := some sampleContent
    regeneratingSections := []
    toastMessage := ""
    logs := []
    options := defaultOptions
    outputLanguage := .auto
    lastUsedOptions := some defaultOptions
    lastUsedOutputLanguage := some .auto
    sectionLanguages := initialSectionLanguages
    originLanguage := .English }

/-! ## Small lemmas about the pending set -/

theorem mem_pendingAdd_self (l : List Section) (sec : Section) :
    sec ∈ pendingAdd l sec := by
  unfold pendingAdd
  split
  · assumption
  · simp

theorem not_mem_pendingRemove (l : List Section) (sec : Section) :
    sec ∉ pendingRemove l sec := by
  simp [pendingRemove]

theorem regenerateStart_busy (s : AppState) (sec : Section)
    (h : sec ∈ s.regeneratingSections) : regenerateStart sec s = (s, none) := by
  unfold regenerateStart
  cases s.productData with
  | none => rfl
  | some pd => simp [h]

theorem translateStart_busy (s : AppState) (sec : Section) (target : Language)
    (h : sec ∈ s.regeneratingSections) : translateStart sec target s = (s, none) := by
  unfold translateStart
  cases s.productData with
  | none => rfl
  | some pd =>
    cases s.generatedContent with
    | none => rfl
    | some g => simp [h]

theorem regenerateStart_eq (s : AppState) (sec : Section) (pd : ScrapedProductData)
    (hp : s.productData = some pd) (hm : sec ∉ s.regeneratingSections) :
    regenerateStart sec s =
      ({ s with
          logs := s.logs ++ ["[START] Regenerating section: " ++ secName sec ++ " in "
            ++ langName ((s.sectionLanguages.get sec).getD .English) ++ "..."]
          regeneratingSections := pendingAdd s.regeneratingSections sec },
        some ⟨sec, pd, s.options, (s.sectionLanguages.get sec).getD .English⟩) := by
  simp only [regenerateStart, hp, addLog]
  rw [if_neg hm]

/-! ## The claims -/

/-- C10: triggering Generate while the user input is empty or whitespace
only is a complete no-op — no extraction or gateway call, and the state
(logs, content, product, options, languages, loading flag, error) is
returned exactly as it was. -/
theorem blank_input_generate_is_noop (s : AppState)
    (er : Except String ScrapedProductData) (gw : GwResult)
    (hblank : jsTrim s.userInput = "") :
    handleGenerate s er gw = (s, 0, 0) := by
  unfold handleGenerate
  rw [if_pos hblank]

theorem blank_input_generate_is_noop_witness :
    jsTrim { sampleReadyState with userInput := "   " }.userInput = "" ∧
    handleGenerate { sampleReadyState with userInput := "   " }
        (.error "boom") (.err "down") =
      ({ sampleReadyState with userInput := "   " }, 0, 0) :=
  ⟨by decide,
    blank_input_generate_is_noop { sampleReadyState with userInput := "   " }
      (.error "boom") (.err "down") (by decide)⟩

/-- C9: regenerating the `photo` section makes zero gateway calls and
returns the stored image URL with `&t=<clock>` appended; two calls whose
clock readings differ produce distinct output strings. -/
theorem photo_regenerate_no_gateway_and_fresh_token
    (product : ScrapedProductData) (options : CustomizationOptions)
    (lang : Language) (now t1 t2 : Nat)
    (gw gw1 gw2 : Except String String) (hne : t1 ≠ t2) :
    regenerateSectionContent ⟨.photo, product, options, lang⟩ now gw =
      (.ok (product.image ++ "&t=" ++ Nat.repr now), 0) ∧
    (regenerateSectionContent ⟨.photo, product, options, lang⟩ t1 gw1).1 ≠
      (regenerateSectionContent ⟨.photo, product, options, lang⟩ t2 gw2).1 := by
  constructor
  · rfl
  · show Except.ok (product.image ++ "&t=" ++ Nat.repr t1) ≠
      Except.ok (product.image ++ "&t=" ++ Nat.repr t2)
    intro h
    apply hne
    apply natRepr_inj
    have h' : product.image ++ "&t=" ++ Nat.repr t1
        = product.image ++ "&t=" ++ Nat.repr t2 := by injection h
    have hd := congrArg String.data h'
    simp only [String.data_append] at hd
    have := List.append_cancel_left hd
    exact congrArg String.mk this

theorem photo_regenerate_no_gateway_and_fresh_token_witness :
    (1000 : Nat) ≠ 1001 ∧
    (regenerateSectionContent ⟨.photo, sampleProduct, defaultOptions, .English⟩ 1000
        (.ok "ignored") =
      (.ok ("https://x/img.png" ++ "&t=" ++ Nat.repr 1000), 0) ∧
    (regenerateSectionContent ⟨.photo, sampleProduct, defaultOptions, .English⟩ 1000
        (.ok "ignored")).1 ≠
      (regenerateSectionContent ⟨.photo, sampleProduct, defaultOptions, .English⟩ 1001
        (.ok "ignored")).1) :=
  ⟨by decide,
    photo_regenerate_no_gateway_and_fresh_token sampleProduct defaultOptions .English
      1000 1000 1001 (.ok "ignored") (.ok "ignored") (.ok "ignored") (by decide)⟩

/-- C3 counterexample: a parseable gateway response missing every required
key (`{}` → all four fields absent) does NOT fail: `generateAllContent`
succeeds, defaulting the missing keys to empty strings, contradicting the
claim that a parseable response missing `header`/`description`/`features`
fails with `GenerationFormatError`. -/
theorem missing_keys_do_not_fail_counterexample :
    generateAllContent sampleProduct (.raw (some ⟨none, none, none, none⟩)) =
      .ok ⟨"", "", "", none⟩ := by
  rfl

/-- C3 (amended): `generateAllContent` fails with the fixed
format-error message exactly when the response text is not parseable as
JSON; every parseable response succeeds, with missing keys defaulted to
empty strings rather than rejected. -/
theorem generateAll_format_error_iff_unparseable
    (p q : ScrapedProductData) (r : GenAllResp) :
    generateAllContent p (.raw none) =
      .error "AI failed to generate a valid response. Check the debug log for details." ∧
    generateAllContent q (.raw (some r)) =
      .ok ⟨cleanAiOutput (r.header?.getD ""), cleanAiOutput (r.description?.getD ""),
        cleanFeatures (r.features?.getD ""),
        r.reviews?.map fun v => if v = "" then "" else cleanAiOutput v⟩ :=
  ⟨rfl, rfl⟩

/-- C1: per-section mutual exclusion.  A regenerate on a free section (with
product data present) issues its request and synchronously puts the section
into the pending set; while it is there, a further regenerate or translate
request on the same section returns the state unchanged and issues no
request (dropped, not queued), and when the call settles the section leaves
the pending set — so two back-to-back requests on one section issue exactly
one AI call. -/
theorem pending_set_mutual_exclusion
    (s : AppState) (sec : Section) (target : Language)
    (hpd : s.productData.isSome = true)
    (hfree : sec ∉ s.regeneratingSections) :
    (regenerateStart sec s).2.isSome = true ∧
    sec ∈ (regenerateStart sec s).1.regeneratingSections ∧
    regenerateStart sec (regenerateStart sec s).1 = ((regenerateStart sec s).1, none) ∧
    translateStart sec target (regenerateStart sec s).1 = ((regenerateStart sec s).1, none) ∧
    ∀ res, sec ∉ (regenerateFinish sec res (regenerateStart sec s).1).regeneratingSections := by
  obtain ⟨pd, hpd'⟩ := Option.isSome_iff_exists.mp hpd
  have hstart := regenerateStart_eq s sec pd hpd' hfree
  have hmem : sec ∈ (regenerateStart sec s).1.regeneratingSections := by
    rw [hstart]
    exact mem_pendingAdd_self _ _
  refine ⟨?_, hmem, ?_, ?_, ?_⟩
  · rw [hstart]; rfl
  · exact regenerateStart_busy _ _ hmem
  · exact translateStart_busy _ _ _ hmem
  · intro res
    exact not_mem_pendingRemove _ _

theorem pending_set_mutual_exclusion_witness :
    sampleReadyState.productData.isSome = true ∧
    Section.header ∉ sampleReadyState.regeneratingSections ∧
    ((regenerateStart .header sampleReadyState).2.isSome = true ∧
      Section.header ∈ (regenerateStart .header sampleReadyState).1.regeneratingSections ∧
      regenerateStart .header (regenerateStart .header sampleReadyState).1 =
        ((regenerateStart .header sampleReadyState).1, none) ∧
      translateStart .header .Hebrew (regenerateStart .header sampleReadyState).1 =
        ((regenerateStart .header sampleReadyState).1, none) ∧
      Section.header ∉ (regenerateFinish .header (.error "down")
        (regenerateStart .header sampleReadyState).1).regeneratingSections) :=
  ⟨by decide, by decide,
    (pending_set_mutual_exclusion sampleReadyState .header .Hebrew
      (by decide) (by decide)).imp_right fun h =>
        h.imp_right fun h2 => h2.imp_right fun h3 => h3.imp_right fun h4 =>
          h4 (.error "down")⟩

/-! ## Frame lemmas for the per-section handlers -/

theorem regenerateStart_frame (sec : Section) (s : AppState) :
    (regenerateStart sec s).1.generatedContent = s.generatedContent ∧
    (regenerateStart sec s).1.sectionLanguages = s.sectionLanguages ∧
    (regenerateStart sec s).1.error = s.error ∧
    (regenerateStart sec s).1.toastMessage = s.toastMessage ∧
    (regenerateStart sec s).1.productData = s.productData := by
  cases hp : s.productData with
  | none => simp [regenerateStart, hp]
  | some pd =>
    by_cases hm : sec ∈ s.regeneratingSections
    · simp [regenerateStart, hp, hm, addLog]
    · simp [regenerateStart, hp, hm, addLog]

theorem translateStart_frame (sec : Section) (target : Language) (s : AppState) :
    (translateStart sec target s).1.generatedContent = s.generatedContent ∧
    (translateStart sec target s).1.sectionLanguages = s.sectionLanguages ∧
    (translateStart sec target s).1.error = s.error ∧
    (translateStart sec target s).1.toastMessage = s.toastMessage := by
  cases hp : s.productData with
  | none => simp [translateStart, hp]
  | some pd =>
    cases hg : s.generatedContent with
    | none => simp [translateStart, hp, hg]
    | some g =>
      by_cases hm : sec ∈ s.regeneratingSections
      · simp [translateStart, hp, hg, hm, addLog]
      · cases hs : getSection g sec <;>
          simp [translateStart, hp, hg, hm, hs, addLog]

theorem regenerateFinish_error_frame (sec : Section) (m : String) (s : AppState) :
    (regenerateFinish sec (.error m) s).generatedContent = s.generatedContent ∧
    (regenerateFinish sec (.error m) s).sectionLanguages = s.sectionLanguages ∧
    (regenerateFinish sec (.error m) s).error = s.error ∧
    (regenerateFinish sec (.error m) s).toastMessage = s.toastMessage ∧
    (regenerateFinish sec (.error m) s).logs =
      s.logs ++ ["[ERROR] Failed to regenerate " ++ secName sec ++ ": " ++ m] ∧
    sec ∉ (regenerateFinish sec (.error m) s).regeneratingSections :=
  ⟨rfl, rfl, rfl, rfl, rfl, not_mem_pendingRemove _ _⟩

theorem translateFinish_error_frame (sec : Section) (target : Language)
    (m : String) (s : AppState) :
    (translateFinish sec target (.error m) s).generatedContent = s.generatedContent ∧
    (translateFinish sec target (.error m) s).sectionLanguages = s.sectionLanguages ∧
    (translateFinish sec target (.error m) s).error = s.error ∧
    (translateFinish sec target (.error m) s).toastMessage = s.toastMessage ∧
    (translateFinish sec target (.error m) s).logs =
      s.logs ++ ["[ERROR] Failed to translate " ++ secName sec ++ ": " ++ m] ∧
    sec ∉ (translateFinish sec target (.error m) s).regeneratingSections :=
  ⟨rfl, rfl, rfl, rfl, rfl, not_mem_pendingRemove _ _⟩

/-- C4: error atomicity.  A failing full-batch generation leaves the
content store cleared (and the error surfaced); a failing per-section
regenerate or translate — composed from its synchronous start phase and
its failing completion — leaves every section's content and every
language tag exactly as before the request, and the section leaves the
pending set. -/
theorem failure_atomicity :
    (∀ (s : AppState) (d : ScrapedProductData) (gw : GwResult) (m : String),
      jsTrim s.userInput ≠ "" → generateAllContent d gw = .error m →
        (handleGenerate s (.ok d) gw).1.generatedContent = none ∧
        (handleGenerate s (.ok d) gw).1.error.isSome = true) ∧
    (∀ (s : AppState) (m : String) (gw : GwResult),
      jsTrim s.userInput ≠ "" →
        (handleGenerate s (.error m) gw).1.generatedContent = none ∧
        (handleGenerate s (.error m) gw).1.error.isSome = true) ∧
    (∀ (s : AppState) (sec : Section) (m : String),
      (regenerateFinish sec (.error m) (regenerateStart sec s).1).generatedContent
          = s.generatedContent ∧
      (regenerateFinish sec (.error m) (regenerateStart sec s).1).sectionLanguages
          = s.sectionLanguages ∧
      sec ∉ (regenerateFinish sec (.error m)
          (regenerateStart sec s).1).regeneratingSections) ∧
    (∀ (s : AppState) (sec : Section) (target : Language) (m : String),
      (translateFinish sec target (.error m)
          (translateStart sec target s).1).generatedContent = s.generatedContent ∧
      (translateFinish sec target (.error m)
          (translateStart sec target s).1).sectionLanguages = s.sectionLanguages ∧
      sec ∉ (translateFinish sec target (.error m)
          (translateStart sec target s).1).regeneratingSections) := by
  refine ⟨?_, ?_, ?_, ?_⟩
  · intro s d gw m h1 h2
    unfold handleGenerate
    rw [if_neg h1]
    simp only [h2, addLog]
    constructor <;> first | rfl | trivial
  · intro s m gw h1
    unfold handleGenerate
    rw [if_neg h1]
    constructor <;> first | rfl | trivial
  · intro s sec m
    obtain ⟨f1, f2, -, -, -, f6⟩ :=
      regenerateFinish_error_frame sec m (regenerateStart sec s).1
    obtain ⟨g1, g2, -, -, -⟩ := regenerateStart_frame sec s
    exact ⟨f1.trans g1, f2.trans g2, f6⟩
  · intro s sec target m
    obtain ⟨f1, f2, -, -, -, f6⟩ :=
      translateFinish_error_frame sec target m (translateStart sec target s).1
    obtain ⟨g1, g2, -, -⟩ := translateStart_frame sec target s
    exact ⟨f1.trans g1, f2.trans g2, f6⟩

theorem failure_atomicity_witness :
    jsTrim sampleReadyState.userInput ≠ "" ∧
    generateAllContent sampleProduct (.raw none) =
      .error "AI failed to generate a valid response. Check the debug log for details." ∧
    ((handleGenerate sampleReadyState (.ok sampleProduct) (.raw none)).1.generatedContent
        = none ∧
      (handleGenerate sampleReadyState (.ok sampleProduct) (.raw none)).1.error.isSome
        = true) ∧
    ((handleGenerate sampleReadyState (.error "net down") (.raw none)).1.generatedContent
        = none ∧
      (handleGenerate sampleReadyState (.error "net down") (.raw none)).1.error.isSome
        = true) ∧
    ((regenerateFinish .header (.error "boom")
        (regenerateStart .header sampleReadyState).1).generatedContent
          = sampleReadyState.generatedContent ∧
      (regenerateFinish .header (.error "boom")
        (regenerateStart .header sampleReadyState).1).sectionLanguages
          = sampleReadyState.sectionLanguages ∧
      Section.header ∉ (regenerateFinish .header (.error "boom")
        (regenerateStart .header sampleReadyState).1).regeneratingSections) ∧
    ((translateFinish .header .Hebrew (.error "boom")
        (translateStart .header .Hebrew sampleReadyState).1).generatedContent
          = sampleReadyState.generatedContent ∧
      (translateFinish .header .Hebrew (.error "boom")
        (translateStart .header .Hebrew sampleReadyState).1).sectionLanguages
          = sampleReadyState.sectionLanguages ∧
      Section.header ∉ (translateFinish .header .Hebrew (.error "boom")
        (translateStart .header .Hebrew sampleReadyState).1).regeneratingSections) :=
  ⟨by decide, rfl,
    failure_atomicity.1 sampleReadyState sampleProduct (.raw none) _ (by decide) rfl,
    failure_atomicity.2.1 sampleReadyState "net down" (.raw none) (by decide),
    failure_atomicity.2.2.1 sampleReadyState .header "boom",
    failure_atomicity.2.2.2 sampleReadyState .header .Hebrew "boom"⟩

/-- C5 counterexample: a failing per-section regenerate in a `Ready` state
is only written to the log — the user-visible error state stays `none` and
the toast stays empty, refuting the claim that every failure is also
reflected in a user-visible error/toast state. -/
theorem section_failure_not_user_visible_counterexample :
    ("[ERROR] Failed to regenerate header: boom" ∈
      (regenerateFinish .header (.error "boom")
        (regenerateStart .header sampleReadyState).1).logs) ∧
    (regenerateFinish .header (.error "boom")
      (regenerateStart .header sampleReadyState).1).error = none ∧
    (regenerateFinish .header (.error "boom")
      (regenerateStart .header sampleReadyState).1).toastMessage = "" := by
  decide

/-- C5 (amended): full-generation failures are logged with the full
message text and surface it in the user-visible error state; per-section
regenerate/translate failures are logged with the full message text but
leave the error and toast state untouched. -/
theorem failure_logging_and_surfacing :
    (∀ (s : AppState) (d : ScrapedProductData) (gw : GwResult) (m : String),
      jsTrim s.userInput ≠ "" → generateAllContent d gw = .error m → m ≠ "" →
        (handleGenerate s (.ok d) gw).1.error = some m ∧
        ("[ERROR] Generation failed: " ++ m) ∈ (handleGenerate s (.ok d) gw).1.logs) ∧
    (∀ (s : AppState) (m : String) (gw : GwResult),
      jsTrim s.userInput ≠ "" → m ≠ "" →
        (handleGenerate s (.error m) gw).1.error = some m ∧
        ("[ERROR] Generation failed: " ++ m) ∈ (handleGenerate s (.error m) gw).1.logs) ∧
    (∀ (s : AppState) (sec : Section) (m : String),
      (regenerateFinish sec (.error m) s).error = s.error ∧
      (regenerateFinish sec (.error m) s).toastMessage = s.toastMessage ∧
      ("[ERROR] Failed to regenerate " ++ secName sec ++ ": " ++ m) ∈
        (regenerateFinish sec (.error m) s).logs) ∧
    (∀ (s : AppState) (sec : Section) (target : Language) (m : String),
      (translateFinish sec target (.error m) s).error = s.error ∧
      (translateFinish sec target (.error m) s).toastMessage = s.toastMessage ∧
      ("[ERROR] Failed to translate " ++ secName sec ++ ": " ++ m) ∈
        (translateFinish sec target (.error m) s).logs) := by
  refine ⟨?_, ?_, ?_, ?_⟩
  · intro s d gw m h1 h2 h3
    unfold handleGenerate
    rw [if_neg h1]
    simp only [h2, addLog]
    rw [if_neg h3]
    exact ⟨rfl, by simp⟩
  · intro s m gw h1 h3
    unfold handleGenerate
    rw [if_neg h1]
    simp only [addLog]
    rw [if_neg h3]
    exact ⟨rfl, by simp⟩
  · intro s sec m
    obtain ⟨-, -, f3, f4, f5, -⟩ := regenerateFinish_error_frame sec m s
    exact ⟨f3, f4, by rw [f5]; simp⟩
  · intro s sec target m
    obtain ⟨-, -, f3, f4, f5, -⟩ := translateFinish_error_frame sec target m s
    exact ⟨f3, f4, by rw [f5]; simp⟩

theorem failure_logging_and_surfacing_witness :
    jsTrim sampleReadyState.userInput ≠ "" ∧
    generateAllContent sampleProduct (.raw none) =
      .error "AI failed to generate a valid response. Check the debug log for details." ∧
    "AI failed to generate a valid response. Check the debug log for details." ≠ "" ∧
    ((handleGenerate sampleReadyState (.ok sampleProduct) (.raw none)).1.error =
        some "AI failed to generate a valid response. Check the debug log for details." ∧
      ("[ERROR] Generation failed: " ++
          "AI failed to generate a valid response. Check the debug log for details.") ∈
        (handleGenerate sampleReadyState (.ok sampleProduct) (.raw none)).1.logs) ∧
    ((regenerateFinish .features (.error "boom") sampleReadyState).error =
        sampleReadyState.error ∧
      (regenerateFinish .features (.error "boom") sampleReadyState).toastMessage =
        sampleReadyState.toastMessage ∧
      ("[ERROR] Failed to regenerate " ++ secName .features ++ ": " ++ "boom") ∈
        (regenerateFinish .features (.error "boom") sampleReadyState).logs) ∧
    ((translateFinish .features .Hebrew (.error "boom") sampleReadyState).error =
        sampleReadyState.error ∧
      (translateFinish .features .Hebrew (.error "boom") sampleReadyState).toastMessage =
        sampleReadyState.toastMessage ∧
      ("[ERROR] Failed to translate " ++ secName .features ++ ": " ++ "boom") ∈
        (translateFinish .features .Hebrew (.error "boom") sampleReadyState).logs) :=
  ⟨by decide, rfl, by decide,
    failure_logging_and_surfacing.1 sampleReadyState sampleProduct (.raw none) _
      (by decide) rfl (by decide),
    failure_logging_and_surfacing.2.2.1 sampleReadyState .features "boom",
    failure_logging_and_surfacing.2.2.2 sampleReadyState .features .Hebrew "boom"⟩

/-- C7: regeneration never changes any language tag.  The start phase and
any completion leave the whole per-section language map unchanged; a
successful completion replaces only the section's content; the issued
request carries the section's current language tag (defaulting to
English); and the option-change reconciliation pass preserves the tag map
as well. -/
theorem regenerate_preserves_language_tags
    (s : AppState) (sec : Section) (txt : String) (req : RegenReq)
    (hreq : (regenerateStart sec s).2 = some req) :
    req.language = (s.sectionLanguages.get sec).getD .English ∧
    (regenerateStart sec s).1.sectionLanguages = s.sectionLanguages ∧
    (∀ res, (regenerateFinish sec res s).sectionLanguages = s.sectionLanguages) ∧
    (regenerateFinish sec (.ok txt) s).generatedContent =
      s.generatedContent.map (fun g => setSection g sec txt) ∧
    (∀ s' : AppState, (optionsReconcile s').1.sectionLanguages = s'.sectionLanguages) := by
  refine ⟨?_, (regenerateStart_frame sec s).2.1, ?_, rfl, ?_⟩
  · cases hp : s.productData with
    | none => rw [regenerateStart] at hreq; rw [hp] at hreq; cases hreq
    | some pd =>
      by_cases hm : sec ∈ s.regeneratingSections
      · rw [regenerateStart_busy s sec hm] at hreq; cases hreq
      · rw [regenerateStart_eq s sec pd hp hm] at hreq
        cases hreq
        rfl
  · intro res
    cases res <;> rfl
  · intro s'
    unfold optionsReconcile
    rcases he : optionsEffect s' with ⟨s1, secs⟩
    have h1 : s1.sectionLanguages = s'.sectionLanguages := by
      unfold optionsEffect at he
      split at he
      · cases he; rfl
      · split at he
        · cases he; rfl
        · split at he
          · cases he; rfl
          · cases he; rfl
    rcases secs with _ | ⟨a, rest⟩
    · exact h1
    · rcases rest with _ | ⟨b, rest2⟩
      · show ((regenerateStart a s1).1, [] ++ (regenerateStart a s1).2.toList).1.sectionLanguages
          = s'.sectionLanguages
        rw [(regenerateStart_frame a s1).2.1, h1]
      · exact absurd he (by
          unfold optionsEffect
          split
          · intro hcon; cases hcon
          · split
            · intro hcon; cases hcon
            · split
              · intro hcon; cases hcon
              · intro hcon; cases hcon)

theorem regenerate_preserves_language_tags_witness :
    (regenerateStart .description sampleReadyState).2 =
      some ⟨.description, sampleProduct, defaultOptions, .English⟩ ∧
    ((⟨.description, sampleProduct, defaultOptions, .English⟩ : RegenReq).language =
      (sampleReadyState.sectionLanguages.get .description).getD .English ∧
    (regenerateStart .description sampleReadyState).1.sectionLanguages =
      sampleReadyState.sectionLanguages ∧
    (regenerateFinish .description (.error "x") sampleReadyState).sectionLanguages =
      sampleReadyState.sectionLanguages ∧
    (regenerateFinish .description (.ok "New") sampleReadyState).generatedContent =
      sampleReadyState.generatedContent.map (fun g => setSection g .description "New") ∧
    (optionsReconcile sampleReadyState).1.sectionLanguages =
      sampleReadyState.sectionLanguages) :=
  ⟨by decide,
    (regenerate_preserves_language_tags sampleReadyState .description "New"
        ⟨.description, sampleProduct, defaultOptions, .English⟩ (by decide)).imp_right
      fun h => h.imp_right fun h2 =>
        ⟨h2.1 (.error "x"), h2.2.1, h2.2.2 sampleReadyState⟩⟩

/-- When content is present, the snapshot equals the current options,
nothing is loading and nothing is pending, the option-reconciliation
effect does nothing. -/
theorem optionsEffect_quiescent (t : AppState)
    (h1 : t.generatedContent.isNone = false)
    (h2 : t.lastUsedOptions = some t.options)
    (h3 : t.isLoading = false)
    (h4 : t.regeneratingSections = []) :
    optionsEffect t = (t, []) := by
  unfold optionsEffect
  rw [h1, h2, h3, h4]
  simp

/-- C6: in a `Ready` state (content present, snapshot taken, not loading,
nothing pending) with product data available, changing any of
`tone`/`length`/`emojis` away from the last-used snapshot makes the
reconciliation pass issue exactly one regenerate request, targeted at
`description`; the snapshot is set to the new options already in the
effect phase, before the dispatch; and once the dispatched regeneration
settles, a further pass triggers nothing. -/
theorem option_change_triggers_description_once
    (s : AppState) (lu : CustomizationOptions)
    (hgc : s.generatedContent.isSome = true)
    (hpd : s.productData.isSome = true)
    (hlu : s.lastUsedOptions = some lu)
    (hload : s.isLoading = false)
    (hpend : s.regeneratingSections = [])
    (hdiff : s.options.tone ≠ lu.tone ∨ s.options.length ≠ lu.length
      ∨ s.options.emojis ≠ lu.emojis) :
    (optionsEffect s).1 = { s with lastUsedOptions := some s.options } ∧
    (optionsEffect s).2 = [.description] ∧
    (∃ req, (optionsReconcile s).2 = [req] ∧ req.sec = .description) ∧
    (optionsReconcile s).1.lastUsedOptions = some s.options ∧
    ∀ res,
      optionsEffect (regenerateFinish .description res (optionsReconcile s).1) =
        (regenerateFinish .description res (optionsReconcile s).1, []) := by
  obtain ⟨pd, hpd'⟩ := Option.isSome_iff_exists.mp hpd
  have hguard : (s.generatedContent.isNone || s.lastUsedOptions.isNone || s.isLoading
      || !s.regeneratingSections.isEmpty) = false := by
    rw [hlu, hload, hpend]
    rcases hg : s.generatedContent with _ | g
    · rw [hg] at hgc; cases hgc
    · rfl
  have heff : optionsEffect s = ({ s with lastUsedOptions := some s.options }, [.description]) := by
    unfold optionsEffect
    rw [hguard]
    simp only [Bool.false_eq_true, if_false, hlu]
    rw [if_pos hdiff]
  have hfree : Section.description ∉ s.regeneratingSections := by
    rw [hpend]; simp
  have hstart := regenerateStart_eq { s with lastUsedOptions := some s.options } .description pd
    (by simpa using hpd') (by simpa using hfree)
  have hrec : optionsReconcile s =
      ((regenerateStart .description { s with lastUsedOptions := some s.options }).1,
        (regenerateStart .description { s with lastUsedOptions := some s.options }).2.toList) := by
    unfold optionsReconcile
    rw [heff]
    rfl
  refine ⟨by rw [heff], by rw [heff], ?_, ?_, ?_⟩
  · refine ⟨⟨.description, pd, s.options,
      (s.sectionLanguages.get .description).getD .English⟩, ?_, rfl⟩
    rw [hrec, hstart]
    rfl
  · rw [hrec, hstart]
  · intro res
    obtain ⟨g, hg⟩ := Option.isSome_iff_exists.mp hgc
    have hopts : (regenerateFinish .description res (optionsReconcile s).1).options
        = s.options := by
      rw [hrec, hstart]
      cases res <;> rfl
    refine optionsEffect_quiescent _ ?_ ?_ ?_ ?_
    · rw [hrec, hstart]
      cases res <;> simp [regenerateFinish, addLog, hg]
    · rw [hopts, hrec, hstart]
      cases res <;> rfl
    · rw [hrec, hstart]
      cases res <;> exact hload
    · rw [hrec, hstart]
      cases res <;>
        simp [regenerateFinish, addLog, pendingRemove, pendingAdd, hpend, List.filter]

def casualOptions : CustomizationOptions := ⟨.Casual, .Auto, .No⟩

def sampleChangedState : AppState := { sampleReadyState with options := casualOptions }

theorem option_change_triggers_description_once_witness :
    sampleChangedState.generatedContent.isSome = true ∧
    sampleChangedState.productData.isSome = true ∧
    sampleChangedState.lastUsedOptions = some defaultOptions ∧
    sampleChangedState.isLoading = false ∧
    sampleChangedState.regeneratingSections = [] ∧
    sampleChangedState.options.tone ≠ defaultOptions.tone ∧
    ((optionsEffect sampleChangedState).1 =
        { sampleChangedState with lastUsedOptions := some sampleChangedState.options } ∧
      (optionsEffect sampleChangedState).2 = [.description] ∧
      (∃ req, (optionsReconcile sampleChangedState).2 = [req] ∧ req.sec = .description) ∧
      (optionsReconcile sampleChangedState).1.lastUsedOptions =
        some sampleChangedState.options ∧
      optionsEffect (regenerateFinish .description (.ok "fresh")
          (optionsReconcile sampleChangedState).1) =
        (regenerateFinish .description (.ok "fresh")
          (optionsReconcile sampleChangedState).1, [])) :=
  ⟨by decide, by decide, by decide, by decide, by decide, by decide,
    (option_change_triggers_description_once sampleChangedState defaultOptions
        (by decide) (by decide) (by decide) (by decide) (by decide)
        (Or.inl (by decide))).imp_right
      fun h => h.imp_right fun h2 => h2.imp_right fun h3 => h3.imp_right
        fun h4 => h4 (.ok "fresh")⟩

/-- C2: for a product with non-empty title, a successful full generation
(`generateAllContent` on a parseable response that carries a `reviews`
value exactly when the product has reviews — the shape the gateway is
instructed to return — followed by storing the delta plus the photo)
yields a store holding exactly `photo`, `header`, `description`,
`features`, plus `reviews` iff the product's reviews are non-empty, with
the photo slot holding the product image. -/
theorem generateAll_key_set
    (s : AppState) (d : ScrapedProductData) (r : GenAllResp)
    (htitle : d.title ≠ "")
    (hinput : jsTrim s.userInput ≠ "")
    (hhonest : r.reviews?.isSome = true ↔ d.reviews ≠ []) :
    ∃ g, (handleGenerate s (.ok d) (.raw (some r))).1.generatedContent = some g ∧
      g.photo = d.image ∧
      (getSection g .photo).isSome = true ∧
      (getSection g .header).isSome = true ∧
      (getSection g .description).isSome = true ∧
      (getSection g .features).isSome = true ∧
      ((getSection g .reviews).isSome = true ↔ d.reviews ≠ []) := by
  refine ⟨⟨d.image, cleanAiOutput (r.header?.getD ""),
      cleanAiOutput (r.description?.getD ""), cleanFeatures (r.features?.getD ""),
      r.reviews?.map fun v => if v = "" then "" else cleanAiOutput v⟩,
    ?_, rfl, rfl, rfl, rfl, rfl, ?_⟩
  · unfold handleGenerate
    rw [if_neg hinput]
    rfl
  · show (Option.map _ r.reviews?).isSome = true ↔ d.reviews ≠ []
    cases hr : r.reviews? <;> rw [hr] at hhonest <;> simpa using hhonest

theorem generateAll_key_set_witness :
    sampleProduct.title ≠ "" ∧
    jsTrim sampleReadyState.userInput ≠ "" ∧
    ((GenAllResp.mk (some "H") (some "D") (some "- F") none).reviews?.isSome = true ↔
      sampleProduct.reviews ≠ []) ∧
    (∃ g, (handleGenerate sampleReadyState (.ok sampleProduct)
        (.raw (some ⟨some "H", some "D", some "- F", none⟩))).1.generatedContent = some g ∧
      g.photo = sampleProduct.image ∧
      (getSection g .photo).isSome = true ∧
      (getSection g .header).isSome = true ∧
      (getSection g .description).isSome = true ∧
      (getSection g .features).isSome = true ∧
      ((getSection g .reviews).isSome = true ↔ sampleProduct.reviews ≠ [])) :=
  ⟨by decide, by decide, by decide,
    generateAll_key_set sampleReadyState sampleProduct ⟨some "H", some "D", some "- F", none⟩
      (by decide) (by decide) (by decide)⟩

/-- C8 counterexample: `cleanAiOutput` is the only cleaning applied to a
translation response, and it does not normalise list markers — a reply
starting with `- ` keeps its `-` instead of becoming `•`, refuting the
claim that the output-cleaning applied to every text-producing response
normalises `-`/`*` to `•`. -/
theorem cleaning_no_bullet_normalisation_counterexample :
    translateContent ⟨"hello", .Hebrew, "a product header"⟩ (.ok "- item") =
      (.ok "- item", 1) ∧ ("- item" : String) ≠ "• item" :=
  ⟨rfl, by decide⟩

/-- C8 (amended): `cleanAiOutput` — applied to every text-producing
response — strips markdown heading lines (all of them, not only leading
ones), strips the known introductory boilerplate phrases (English and the
Hebrew `להלן` pattern) up to their colon, and trims; text containing none
of these patterns passes through unchanged.  Normalisation of `-`/`*`
list markers to `•` and the dropping of emptied lines happen only in the
features-section pipelines (full generation and per-section
regeneration); a translation response is returned as the trimmed
`cleanAiOutput` only. -/
theorem cleaning_behaviour
    : (∀ s : String, jsTrim s = s → headingFree s = true →
        introFree hereIsThePat true s.data = true →
        introFree heresAnPat true s.data = true →
        introFree hebrewLeadPat false s.data = true →
        cleanAiOutput s = s) ∧
      cleanAiOutput "### Title\nBody" = "Body" ∧
      cleanAiOutput "A\n## B\nC" = "A\n\nC" ∧
      cleanAiOutput "Here is the description: Good stuff" = "Good stuff" ∧
      cleanAiOutput "להלן התיאור: טוב" = "טוב" ∧
      cleanFeatures "- a\n\n* b" = "• a\n• b" ∧
      regenFeaturesClean "- a\n\n* b" = "• a\n• b" ∧
      (∀ (req : TranslateReq) (t : String), req.text ≠ "" →
        translateContent req (.ok t) = (.ok (cleanAiOutput (jsTrim t)), 1)) := by
  refine ⟨cleanAiOutput_id, by decide, by decide, by decide, by decide, by decide,
    by decide, ?_⟩
  intro req t h1
  unfold translateContent
  rw [if_neg h1]

theorem cleaning_behaviour_witness :
    (jsTrim "plain text" = "plain text" ∧ headingFree "plain text" = true ∧
      introFree hereIsThePat true ("plain text" : String).data = true ∧
      introFree heresAnPat true ("plain text" : String).data = true ∧
      introFree hebrewLeadPat false ("plain text" : String).data = true ∧
      cleanAiOutput "plain text" = "plain text") ∧
    (("keep" : String) ≠ "" ∧
      translateContent ⟨"keep", .English, "text"⟩ (.ok "- x") =
        (.ok (cleanAiOutput (jsTrim "- x")), 1)) :=
  ⟨⟨by decide, by decide, by decide, by decide, by decide,
      cleaning_behaviour.1 "plain text" (by decide) (by decide) (by decide)
        (by decide) (by decide)⟩,
    ⟨by decide,
      cleaning_behaviour.2.2.2.2.2.2.2 ⟨"keep", .English, "text"⟩ "- x" (by decide)⟩⟩
